import Mathlib

/-!
Verification of the gbajs2 memory subsystem, DMA engine and timing model.

The JavaScript sources (src/js/util.js, src/js/gba.js, src/js/io.js) are
shallowly embedded: ArrayBuffers become lists of byte values, DataView
accesses become little/big-endian byte assembly, 32-bit JavaScript bitwise
results are represented by their unsigned 32-bit patterns, and methods
become pure functions from state to state.
-/

namespace GBA

/-- Byte read from a backing buffer cell (DataView.getUint8).  Buffers model
JavaScript ArrayBuffers as lists of byte values; a read normalizes modulo 256
because the backing store is byte typed, and reads past the end of the list
yield 0 (all verified accesses are kept in bounds by masks or hypotheses). -/
def readByte (buf : List Nat) (i : Nat) : Nat := buf.getD i 0 % 256

/-- Little-endian 16-bit read (DataView.getUint16 with littleEndian set),
returned as the unsigned 16-bit pattern. -/
def getUint16LE (buf : List Nat) (i : Nat) : Nat :=
  readByte buf i + 256 * readByte buf (i + 1)

/-- Little-endian 32-bit read (DataView.getInt32 / getUint32 with
littleEndian set), returned as the unsigned 32-bit pattern. -/
def getUint32LE (buf : List Nat) (i : Nat) : Nat :=
  readByte buf i + 256 * readByte buf (i + 1) + 65536 * readByte buf (i + 2) +
    16777216 * readByte buf (i + 3)

/-- Big-endian 32-bit read (DataView.getInt32 with the littleEndian flag
omitted, as in the view-to-view DMA fast path), as the unsigned pattern. -/
def getUint32BE (buf : List Nat) (i : Nat) : Nat :=
  16777216 * readByte buf i + 65536 * readByte buf (i + 1) +
    256 * readByte buf (i + 2) + readByte buf (i + 3)

/-- Interpretation of an 8-bit pattern as the signed value DataView.getInt8
returns. -/
def asInt8 (b : Nat) : Int :=
  if b % 256 < 128 then ((b % 256 : Nat) : Int) else ((b % 256 : Nat) : Int) - 256

/-- Interpretation of a 16-bit pattern as the signed value DataView.getInt16
returns. -/
def asInt16 (w : Nat) : Int :=
  if w % 65536 < 32768 then ((w % 65536 : Nat) : Int) else ((w % 65536 : Nat) : Int) - 65536

/-- Interpretation of a 32-bit pattern as the signed value DataView.getInt32
returns. -/
def asInt32 (w : Nat) : Int :=
  if w % 4294967296 < 2147483648 then ((w % 4294967296 : Nat) : Int)
  else ((w % 4294967296 : Nat) : Int) - 4294967296

/-- Right rotation of a 32-bit word by r bits, 0 ≤ r < 32: the rotate_right
of the specification. -/
def rotateRight32 (w r : Nat) : Nat :=
  (w >>> r) ||| ((w <<< (32 - r)) % 4294967296)

/-- Little-endian 32-bit write (DataView.setInt32 with littleEndian set):
store the four bytes of the word pattern at i, low byte first. -/
def setUint32LE (buf : List Nat) (i w : Nat) : List Nat :=
  (((buf.set i (w % 256)).set (i + 1) ((w >>> 8) % 256)).set (i + 2) ((w >>> 16) % 256)).set
    (i + 3) ((w >>> 24) % 256)

/-- Big-endian 32-bit write (DataView.setInt32 with the littleEndian flag
omitted, as in the view-to-view DMA fast path): high byte first. -/
def setUint32BE (buf : List Nat) (i w : Nat) : List Nat :=
  (((buf.set i ((w >>> 24) % 256)).set (i + 1) ((w >>> 16) % 256)).set
    (i + 2) ((w >>> 8) % 256)).set (i + 3) (w % 256)

/-- Unsigned 32-bit pattern of a JavaScript number in int32 range
(the ToUint32 conversion applied to bitwise operands). -/
def toUint32 (x : Int) : Nat := (x % 4294967296).toNat

/-- Signed reading of the 32-bit pattern of x (the ToInt32 result of a
JavaScript bitwise expression). -/
def toInt32 (x : Int) : Int :=
  if toUint32 x < 2147483648 then (toUint32 x : Int) else (toUint32 x : Int) - 4294967296

/-- JavaScript bitwise OR: combine the operand patterns, return the signed
32-bit result. -/
def jsOr (a b : Int) : Int := toInt32 ((toUint32 a ||| toUint32 b : Nat) : Int)

/-- JavaScript bitwise AND: combine the operand patterns, return the signed
32-bit result. -/
def jsAnd (a b : Int) : Int := toInt32 ((toUint32 a &&& toUint32 b : Nat) : Int)

namespace MemoryView

/-- Address mask of a region: byte length minus one (MemoryView constructor,
src/js/util.js line 285). -/
def mask (buf : List Nat) : Nat := buf.length - 1

/-- Derived 8-bit mask (resetMask, line 294). -/
def mask8 (buf : List Nat) : Nat := mask buf &&& 0xffffffff

/-- Derived 16-bit aligned mask (resetMask, line 295). -/
def mask16 (buf : List Nat) : Nat := mask buf &&& 0xfffffffe

/-- Derived 32-bit aligned mask (resetMask, line 296). -/
def mask32 (buf : List Nat) : Nat := mask buf &&& 0xfffffffc

/-- MemoryView.load8: signed byte at offset masked with mask8. -/
def load8 (buf : List Nat) (offset : Nat) : Int :=
  asInt8 (readByte buf (offset &&& mask8 buf))

/-- MemoryView.load16: signed little-endian halfword at offset masked with
the byte mask (unaligned 16-bit loads are simulated verbatim). -/
def load16 (buf : List Nat) (offset : Nat) : Int :=
  asInt16 (getUint16LE buf (offset &&& mask buf))

/-- MemoryView.loadU8: unsigned byte at offset masked with mask8. -/
def loadU8 (buf : List Nat) (offset : Nat) : Nat :=
  readByte buf (offset &&& mask8 buf)

/-- MemoryView.loadU16: unsigned little-endian halfword at offset masked
with the byte mask. -/
def loadU16 (buf : List Nat) (offset : Nat) : Nat :=
  getUint16LE buf (offset &&& mask buf)

/-- MemoryView.load32 (src/js/util.js lines 337-342), returning the 32-bit
result as its unsigned pattern.  The rotate count is (offset & 3) << 3; the
aligned word is fetched at offset & mask32; the JavaScript expression
(mem >>> rotate) | (mem << (32 - rotate)) shifts left by (32 - rotate) mod 32
because JavaScript reduces shift counts modulo 32. -/
def load32 (buf : List Nat) (offset : Nat) : Nat :=
  (getUint32LE buf (offset &&& mask32 buf) >>> ((offset &&& 3) <<< 3)) |||
    ((getUint32LE buf (offset &&& mask32 buf) <<< ((32 - ((offset &&& 3) <<< 3)) % 32)) %
      4294967296)

/-- MemoryView.store32 (src/js/util.js lines 367-369): little-endian write
of the value pattern at offset & mask32.  The offset comes in as a
JavaScript number, so its 32-bit pattern is masked. -/
def store32 (buf : List Nat) (offset : Int) (value : Nat) : List Nat :=
  setUint32LE buf (toUint32 offset &&& mask32 buf) value

end MemoryView

namespace BIOSView

/-- BIOSView.load8 (src/js/util.js lines 505-510): out-of-bounds reads
return -1, in-bounds reads return the signed byte. -/
def load8 (buf : List Nat) (offset : Nat) : Int :=
  if offset ≥ buf.length then -1 else asInt8 (readByte buf offset)

/-- BIOSView.load16: out-of-bounds reads return -1. -/
def load16 (buf : List Nat) (offset : Nat) : Int :=
  if offset ≥ buf.length then -1 else asInt16 (getUint16LE buf offset)

/-- BIOSView.loadU8 (src/js/util.js lines 519-524): the out-of-bounds branch
returns the JavaScript number -1, not an unsigned byte. -/
def loadU8 (buf : List Nat) (offset : Nat) : Int :=
  if offset ≥ buf.length then -1 else (readByte buf offset : Int)

/-- BIOSView.loadU16: the out-of-bounds branch returns -1. -/
def loadU16 (buf : List Nat) (offset : Nat) : Int :=
  if offset ≥ buf.length then -1 else (getUint16LE buf offset : Int)

/-- BIOSView.load32: out-of-bounds reads return -1. -/
def load32 (buf : List Nat) (offset : Nat) : Int :=
  if offset ≥ buf.length then -1 else asInt32 (getUint32LE buf offset)

end BIOSView

/-- Four-byte example buffer used for concrete counterexamples and
witnesses. -/
def exBuf : List Nat := [0x11, 0x22, 0x33, 0x44]

namespace GameBoyAdvanceMMU

/-- Region index constants (src/js/util.js lines 605-614). -/
def REGION_WORKING_RAM : Nat := 0x2

def REGION_WORKING_IRAM : Nat := 0x3

def REGION_IO : Nat := 0x4

def REGION_CART0 : Nat := 0x8

def REGION_CART1 : Nat := 0xa

def REGION_CART2 : Nat := 0xc

def REGION_CART_SRAM : Nat := 0xe

def DMA_TIMING_NOW : Nat := 0

def DMA_TIMING_VBLANK : Nat := 1

def DMA_TIMING_HBLANK : Nat := 2

def DMA_TIMING_CUSTOM : Nat := 3

def DMA_INCREMENT_RELOAD : Nat := 3

/-- Per-control address step directions (line 657). -/
def DMA_OFFSET : List Int := [1, -1, 0, 1]

/-- Non-sequential ROM wait-state table (line 659). -/
def ROM_WS : List Nat := [4, 3, 2, 8]

/-- Sequential ROM wait-state table, indexed by cartridge window and the
one-bit select (lines 660-664). -/
def ROM_WS_SEQ : List (List Nat) := [[2, 1], [4, 1], [8, 1]]

/-- Mapped halfword indices of the four DMA control registers:
GameBoyAdvanceIO.DMAnCNT_HI right-shifted by one (clear(), lines 760-765,
with the constants from src/js/io.js lines 79-97). -/
def DMA_REGISTER : List Nat := [0xba >>> 1, 0xc6 >>> 1, 0xd2 >>> 1, 0xde >>> 1]

/-- The six wait-state vectors of the MMU, each indexed by region number. -/
structure WaitStates where
  waitstates : Nat → Nat
  waitstates32 : Nat → Nat
  waitstatesSeq : Nat → Nat
  waitstatesSeq32 : Nat → Nat
  waitstatesPrefetch : Nat → Nat
  waitstatesPrefetch32 : Nat → Nat

/-- Single assignment a[i] = v on a vector represented as a function. -/
def upd1 (f : Nat → Nat) (i v : Nat) : Nat → Nat :=
  fun x => if x = i then v else f x

/-- Chained assignment a[i] = a[j] = v. -/
def upd2 (f : Nat → Nat) (i j v : Nat) : Nat → Nat :=
  fun x => if x = i ∨ x = j then v else f x

/-- GameBoyAdvanceMMU.adjustTimings (src/js/util.js lines 1305-1410): decode
the WAITCNT fields and recompute all six wait-state vectors in source order.
Each let rebinding mirrors one assignment statement; reads of a vector after
its own update (the 32-bit rows reading the freshly written 8/16-bit rows)
therefore see the updated values exactly as in the source. -/
def adjustTimings (s : WaitStates) (word : Nat) : WaitStates :=
  let sram := word &&& 0x0003
  let ws0 := (word &&& 0x000c) >>> 2
  let ws0seq := (word &&& 0x0010) >>> 4
  let ws1 := (word &&& 0x0060) >>> 5
  let ws1seq := (word &&& 0x0080) >>> 7
  let ws2 := (word &&& 0x0300) >>> 8
  let ws2seq := (word &&& 0x0400) >>> 10
  let prefetch := word &&& 0x4000
  let ws := upd1 s.waitstates REGION_CART_SRAM (ROM_WS.getD sram 0)
  let wsSeq := upd1 s.waitstatesSeq REGION_CART_SRAM (ROM_WS.getD sram 0)
  let ws32 := upd1 s.waitstates32 REGION_CART_SRAM (ROM_WS.getD sram 0)
  let wsSeq32 := upd1 s.waitstatesSeq32 REGION_CART_SRAM (ROM_WS.getD sram 0)
  let ws := upd2 ws REGION_CART0 (REGION_CART0 + 1) (ROM_WS.getD ws0 0)
  let ws := upd2 ws REGION_CART1 (REGION_CART1 + 1) (ROM_WS.getD ws1 0)
  let ws := upd2 ws REGION_CART2 (REGION_CART2 + 1) (ROM_WS.getD ws2 0)
  let wsSeq := upd2 wsSeq REGION_CART0 (REGION_CART0 + 1) ((ROM_WS_SEQ.getD 0 []).getD ws0seq 0)
  let wsSeq := upd2 wsSeq REGION_CART1 (REGION_CART1 + 1) ((ROM_WS_SEQ.getD 1 []).getD ws1seq 0)
  let wsSeq := upd2 wsSeq REGION_CART2 (REGION_CART2 + 1) ((ROM_WS_SEQ.getD 2 []).getD ws2seq 0)
  let ws32 := upd2 ws32 REGION_CART0 (REGION_CART0 + 1)
    (ws REGION_CART0 + 1 + wsSeq REGION_CART0)
  let ws32 := upd2 ws32 REGION_CART1 (REGION_CART1 + 1)
    (ws REGION_CART1 + 1 + wsSeq REGION_CART1)
  let ws32 := upd2 ws32 REGION_CART2 (REGION_CART2 + 1)
    (ws REGION_CART2 + 1 + wsSeq REGION_CART2)
  let wsSeq32 := upd2 wsSeq32 REGION_CART0 (REGION_CART0 + 1) (2 * wsSeq REGION_CART0 + 1)
  let wsSeq32 := upd2 wsSeq32 REGION_CART1 (REGION_CART1 + 1) (2 * wsSeq REGION_CART1 + 1)
  let wsSeq32 := upd2 wsSeq32 REGION_CART2 (REGION_CART2 + 1) (2 * wsSeq REGION_CART2 + 1)
  if prefetch ≠ 0 then
    let wsPre := upd2 s.waitstatesPrefetch REGION_CART0 (REGION_CART0 + 1) 0
    let wsPre := upd2 wsPre REGION_CART1 (REGION_CART1 + 1) 0
    let wsPre := upd2 wsPre REGION_CART2 (REGION_CART2 + 1) 0
    let wsPre32 := upd2 s.waitstatesPrefetch32 REGION_CART0 (REGION_CART0 + 1) 0
    let wsPre32 := upd2 wsPre32 REGION_CART1 (REGION_CART1 + 1) 0
    let wsPre32 := upd2 wsPre32 REGION_CART2 (REGION_CART2 + 1) 0
    ⟨ws, ws32, wsSeq, wsSeq32, wsPre, wsPre32⟩
  else
    let wsPre := upd2 s.waitstatesPrefetch REGION_CART0 (REGION_CART0 + 1) (wsSeq REGION_CART0)
    let wsPre := upd2 wsPre REGION_CART1 (REGION_CART1 + 1) (wsSeq REGION_CART1)
    let wsPre := upd2 wsPre REGION_CART2 (REGION_CART2 + 1) (wsSeq REGION_CART2)
    let wsPre32 := upd2 s.waitstatesPrefetch32 REGION_CART0 (REGION_CART0 + 1)
      (wsSeq32 REGION_CART0)
    let wsPre32 := upd2 wsPre32 REGION_CART1 (REGION_CART1 + 1) (wsSeq32 REGION_CART1)
    let wsPre32 := upd2 wsPre32 REGION_CART2 (REGION_CART2 + 1) (wsSeq32 REGION_CART2)
    ⟨ws, ws32, wsSeq, wsSeq32, wsPre, wsPre32⟩

/-- GameBoyAdvanceMMU.waitMul (src/js/util.js lines 1044-1054) as the number
of cycles added to cpu.cycles.  In the source each guard reads
rs & (constant === constant) || !(rs & highMask); the constant comparison
evaluates to true, which the bitwise AND coerces to 1, so the first disjunct
of every guard is rs & 1. -/
def waitMulCycles (rs : Nat) : Nat :=
  if rs &&& 1 ≠ 0 ∨ rs &&& 0xffffff00 = 0 then 1
  else if rs &&& 1 ≠ 0 ∨ rs &&& 0xffff0000 = 0 then 2
  else if rs &&& 1 ≠ 0 ∨ rs &&& 0xff000000 = 0 then 3
  else 4

/-- One DMA channel record as the interrupt handler programs it and
serviceDma updates it.  The repeat flag of the source is named repeats
here. -/
structure DmaInfo where
  enable : Bool
  repeats : Bool
  width : Nat
  doIrq : Bool
  srcControl : Nat
  dstControl : Nat
  timing : Nat
  source : Nat
  dest : Nat
  count : Nat
  nextSource : Int
  nextDest : Int
  nextCount : Int
  nextIRQ : Int
deriving DecidableEq

/-- GameBoyAdvanceMMU.serviceDma (src/js/util.js lines 1162-1299) projected
onto the channel record and the mapped I/O register file.  The transfer
loop itself mutates region buffers, which live outside this state and are
modelled separately by the dma copy path functions; its effect on the local
variables is what this function keeps: source and dest are masked with
OFFSET_MASK, aligned down to the word for 4-byte widths, and advanced by
their per-access offsets once per word, and the post-decrement loop leaves
wordsRemaining at -1.  When doIrq is set, nextIRQ is recomputed from the
wait-state vectors.  Without repeat, enable clears and the mapped control
register is masked with 0x7fe0; with repeat, nextCount reloads from count,
nextDest reloads from dest under incrementReload, and the reschedule
through scheduleDma leaves this state unchanged for vblank and hblank
timings (immediate timing would re-enter serviceDma and never return, and
custom timing hands the record to the audio or video collaborator outside
the core). -/
def serviceDma (dma : Nat) (info : DmaInfo) (ioRegs : Nat → Nat) (ws : WaitStates)
    (cycles : Int) : DmaInfo × (Nat → Nat) :=
  if !info.enable then (info, ioRegs)
  else
    let width := info.width
    let sourceOffset := DMA_OFFSET.getD info.srcControl 0 * (width : Int)
    let destOffset := DMA_OFFSET.getD info.dstControl 0 * (width : Int)
    let sourceRegion := toUint32 info.nextSource >>> 24
    let destRegion := toUint32 info.nextDest >>> 24
    let wordsRemaining := info.nextCount
    let source0 : Int := ((toUint32 info.nextSource &&& 0x00ffffff : Nat) : Int)
    let dest0 : Int := ((toUint32 info.nextDest &&& 0x00ffffff : Nat) : Int)
    let sourceAligned : Int := if width = 4 then jsAnd source0 0xfffffffc else source0
    let destAligned : Int := if width = 4 then jsAnd dest0 0xfffffffc else dest0
    let n := wordsRemaining.toNat
    let source1 := sourceAligned + sourceOffset * (n : Int)
    let dest1 := destAligned + destOffset * (n : Int)
    let wordsFinal := wordsRemaining - (n : Int) - 1
    let info1 :=
      if info.doIrq then
        { info with nextIRQ := cycles + 2 +
            (if width = 4 then
              ((ws.waitstates32 sourceRegion + ws.waitstates32 destRegion : Nat) : Int)
             else ((ws.waitstates sourceRegion + ws.waitstates destRegion : Nat) : Int)) +
            ((info.count : Int) - 1) *
            (if width = 4 then
              ((ws.waitstatesSeq32 sourceRegion + ws.waitstatesSeq32 destRegion : Nat) : Int)
             else ((ws.waitstatesSeq sourceRegion + ws.waitstatesSeq destRegion : Nat) : Int)) }
      else info
    let info2 := { info1 with
      nextSource := jsOr source1 ((sourceRegion <<< 24 : Nat) : Int),
      nextDest := jsOr dest1 ((destRegion <<< 24 : Nat) : Int),
      nextCount := wordsFinal }
    if !info.repeats then
      ({ info2 with enable := false },
       fun i => if i = DMA_REGISTER.getD dma 0 then ioRegs i &&& 0x7fe0 else ioRegs i)
    else
      let info3 := { info2 with nextCount := (info.count : Int) }
      let info4 :=
        if info.dstControl = DMA_INCREMENT_RELOAD then
          { info3 with nextDest := (info.dest : Int) }
        else info3
      (info4, ioRegs)

/-- Width-4 transfer loop of the serviceDma fast path taken when source and
destination both expose raw views (src/js/util.js lines 1211-1219): each
iteration reads a word big-endian through the source view at
source & sourceMask, writes it big-endian through the destination view at
dest & destMask, and advances both addresses by their per-access offsets. -/
def dmaCopyViews32 (src : List Nat) (srcMask dstMask : Nat) (so dofs : Int) :
    Nat → Int → Int → List Nat → List Nat
  | 0, _, _, dst => dst
  | Nat.succ m, source, dest, dst =>
      dmaCopyViews32 src srcMask dstMask so dofs m (source + so) (dest + dofs)
        (setUint32BE dst (toUint32 dest &&& dstMask)
          (getUint32BE src (toUint32 source &&& srcMask)))

/-- Width-4 transfer loop of the serviceDma path taken when only the source
exposes a raw view (src/js/util.js lines 1229-1237): little-endian view
read at source & sourceMask, then a region store32 at dest. -/
def dmaCopyViewStore32 (src : List Nat) (srcMask : Nat) (so dofs : Int) :
    Nat → Int → Int → List Nat → List Nat
  | 0, _, _, dst => dst
  | Nat.succ m, source, dest, dst =>
      dmaCopyViewStore32 src srcMask so dofs m (source + so) (dest + dofs)
        (MemoryView.store32 dst dest (getUint32LE src (toUint32 source &&& srcMask)))

/-- Width-4 transfer loop of the fully general serviceDma path
(src/js/util.js lines 1247-1255): region load32 at source, region store32
at dest. -/
def dmaCopyLoadStore32 (src : List Nat) (so dofs : Int) :
    Nat → Int → Int → List Nat → List Nat
  | 0, _, _, dst => dst
  | Nat.succ m, source, dest, dst =>
      dmaCopyLoadStore32 src so dofs m (source + so) (dest + dofs)
        (MemoryView.store32 dst dest (MemoryView.load32 src (toUint32 source)))

/-- View-to-view service path for a width-4 transfer: word-align source and
dest as the source does (source &= 0xfffffffc; dest &= 0xfffffffc), then run
the copy loop with the view masks of the two regions and the per-access
offsets DMA_OFFSET[control] * 4. -/
def dmaPathViews (src dst : List Nat) (n : Nat) (source dest : Int)
    (srcControl dstControl : Nat) : List Nat :=
  dmaCopyViews32 src (MemoryView.mask src) (MemoryView.mask dst)
    (DMA_OFFSET.getD srcControl 0 * 4) (DMA_OFFSET.getD dstControl 0 * 4) n
    (jsAnd source 0xfffffffc) (jsAnd dest 0xfffffffc) dst

/-- View-read, region-store service path for a width-4 transfer. -/
def dmaPathViewStore (src dst : List Nat) (n : Nat) (source dest : Int)
    (srcControl dstControl : Nat) : List Nat :=
  dmaCopyViewStore32 src (MemoryView.mask src)
    (DMA_OFFSET.getD srcControl 0 * 4) (DMA_OFFSET.getD dstControl 0 * 4) n
    (jsAnd source 0xfffffffc) (jsAnd dest 0xfffffffc) dst

/-- Fully general region-api service path for a width-4 transfer. -/
def dmaPathLoadStore (src dst : List Nat) (n : Nat) (source dest : Int)
    (srcControl dstControl : Nat) : List Nat :=
  dmaCopyLoadStore32 src
    (DMA_OFFSET.getD srcControl 0 * 4) (DMA_OFFSET.getD dstControl 0 * 4) n
    (jsAnd source 0xfffffffc) (jsAnd dest 0xfffffffc) dst

end GameBoyAdvanceMMU

/-- Instruction-cache page.  The decoded arm/thumb instruction arrays are
outside the model (the specification does not mandate their form); the
invalid flag is what the invalidation contract is about. -/
structure Page where
  invalid : Bool
deriving DecidableEq

/-- Icache-relevant state of a MemoryBlock region: the address mask, the
ICACHE_PAGE_BITS field (which invalidatePage mutates), and the page array
as a partial map from page index to allocated page. -/
structure MemoryBlockState where
  mask : Nat
  pageBits : Nat
  icache : Nat → Option Page

namespace MemoryBlock

/-- MemoryBlock constructor (src/js/util.js lines 408-413): mask is
size - 1, ICACHE_PAGE_BITS is the given cache bits, the icache starts with
no allocated pages. -/
def init (size cacheBits : Nat) : MemoryBlockState :=
  ⟨size - 1, cacheBits, fun _ => none⟩

/-- MemoryBlock.invalidatePage (src/js/util.js lines 419-425): mark the page
at icache[(address & mask) >> ICACHE_PAGE_BITS] invalid if it is allocated,
then overwrite ICACHE_PAGE_BITS with the literal 4, exactly as the source
does on every call. -/
def invalidatePage (s : MemoryBlockState) (address : Nat) : MemoryBlockState :=
  let idx := (address &&& s.mask) >>> s.pageBits
  { s with
    icache := fun i =>
      if i = idx then
        match s.icache idx with
        | some _ => some ⟨true⟩
        | none => none
      else s.icache i,
    pageBits := 4 }

/-- Allocation effect of GameBoyAdvanceMMU.accessPage on the region
(src/js/util.js lines 1082-1097): when the requested page is absent or
invalid, a fresh valid page is installed at that index. -/
def accessPage (s : MemoryBlockState) (pageId : Nat) : MemoryBlockState :=
  match s.icache pageId with
  | some p =>
      if p.invalid then
        { s with icache := fun i => if i = pageId then some ⟨false⟩ else s.icache i }
      else s
  | none => { s with icache := fun i => if i = pageId then some ⟨false⟩ else s.icache i }

/-- Icache effect of a byte store through the bus
(GameBoyAdvanceMMU.store8, src/js/util.js lines 970-975): the offset is
masked with 0x00ffffff and invalidatePage is called on it. -/
def store8Invalidate (s : MemoryBlockState) (offset : Nat) : MemoryBlockState :=
  invalidatePage s (offset &&& 0x00ffffff)

end MemoryBlock

/-- On-board working RAM block as constructed by GameBoyAdvanceMMU.clear
(src/js/util.js line 736): size 0x40000 with 9 icache page bits. -/
def wramBlock : MemoryBlockState := MemoryBlock.init 0x40000 9

/-- Concrete wait-state vectors used by witnesses. -/
def exWS : GameBoyAdvanceMMU.WaitStates :=
  ⟨fun x => x, fun x => x + 1, fun x => x + 2, fun x => x + 3, fun x => x + 4, fun x => x + 5⟩

/-- Region slot contents, as far as loadRom installs or replaces them:
the sixteen bus slots hold one of these. -/
inductive Slot
  | biosSlot
  | badSlot
  | wramSlot
  | iramSlot
  | ioSlot
  | paletteSlot
  | vramSlot
  | oamSlot
  | romLo
  | romHi
  | sramSave (size : Nat)
  | flashSave (size : Nat)
  | eepromSave (size : Nat)
deriving DecidableEq

/-- Cartridge record built by loadRom (src/js/util.js lines 807-813): every
field starts null and is only filled when process is set. -/
structure Cart where
  title : Option String
  code : Option String
  maker : Option String
  saveType : Option String
deriving DecidableEq

/-- MMU state touched by loadRom: the region slot assignment, the cart
field and the save field. -/
structure MMUState where
  slots : Nat → Slot
  cart : Option Cart
  save : Option Slot

/-- ROMView.loadU8: a ROM view fixes its mask at 0x01ffffff (constructor,
src/js/util.js line 449), and the inherited loadU8 masks the offset with
mask8 = mask. -/
def ROMView.loadU8 (rom : List Nat) (offset : Nat) : Nat :=
  readByte rom (offset &&& 0x01ffffff)

/-- Header string reader of loadRom (the title/code/maker loops,
src/js/util.js lines 828-856): read up to n bytes at base, stopping at the
first zero byte. -/
def readName (rom : List Nat) (base : Nat) : Nat → Nat → List Char
  | _, 0 => []
  | i, Nat.succ m =>
      let c := ROMView.loadU8 rom (i + base)
      if c = 0 then [] else Char.ofNat c :: readName rom base (i + 1) m

/-- Proper prefixes of the save-type tokens: the non-terminal cases of the
scanner switch (src/js/util.js lines 866-891). -/
def savePrefixes : List String :=
  ["F", "FL", "FLA", "FLAS", "FLASH", "FLASH_", "FLASH5", "FLASH51", "FLASH512",
   "FLASH512_", "FLASH1", "FLASH1M", "FLASH1M_", "S", "SR", "SRA", "SRAM", "SRAM_",
   "E", "EE", "EEP", "EEPR", "EEPRO", "EEPROM", "EEPROM_"]

/-- Terminal save-type tokens (src/js/util.js lines 892-897). -/
def saveTerminals : List String :=
  ["FLASH_V", "FLASH512_V", "FLASH1M_V", "SRAM_V", "EEPROM_V"]

/-- Save-type scanner of loadRom (src/js/util.js lines 858-903): starting at
byte 0xe4 with an empty state, append each byte's character to the state;
keep the state while it is a token prefix, stop at a terminal token, and
otherwise restart the state from the current character.  The fuel argument
bounds the loop by the rom length. -/
def scanSaveType (rom : List Nat) : Nat → Nat → String → Option String
  | _, 0, _ => none
  | i, Nat.succ m, state =>
      if i < rom.length then
        let next := Char.ofNat (ROMView.loadU8 rom i)
        let state2 := state.push next
        if state2 ∈ savePrefixes then scanSaveType rom (i + 1) m state2
        else if state2 ∈ saveTerminals then some state2
        else scanSaveType rom (i + 1) m (String.mk [next])
      else none

/-- GameBoyAdvanceMMU.loadRom (src/js/util.js lines 800-940).  The header
check on byte 0xb2 happens on a fresh local ROMView before any field of the
MMU is written, so an invalid header returns undefined (here none) with the
state untouched.  On success the three cartridge windows map the low ROM
view, a high view is added for images above 16 MiB, and under process the
header strings are read and the detected backup (default battery SRAM) is
installed in the SRAM slot, or in the high half of cartridge window 2 for
EEPROM. -/
def loadRom (rom : List Nat) (process : Bool) (s : MMUState) : Option Cart × MMUState :=
  if readByte rom 0xb2 ≠ 0x96 then (none, s)
  else
    let slots1 := fun r => if r = 0x8 ∨ r = 0xa ∨ r = 0xc then Slot.romLo else s.slots r
    let slots2 :=
      if rom.length > 0x01000000 then
        fun r => if r = 0x9 ∨ r = 0xb ∨ r = 0xd then Slot.romHi else slots1 r
      else slots1
    if process then
      let title := String.mk (readName rom 0xa0 0 12)
      let code := String.mk (readName rom 0xac 0 4)
      let maker := String.mk (readName rom 0xb0 0 2)
      let saveType := scanSaveType rom 0xe4 rom.length ""
      let installed : Option Slot :=
        match saveType with
        | some "FLASH_V" => some (Slot.flashSave 0x10000)
        | some "FLASH512_V" => some (Slot.flashSave 0x10000)
        | some "FLASH1M_V" => some (Slot.flashSave 0x20000)
        | some "SRAM_V" => some (Slot.sramSave 0x8000)
        | some "EEPROM_V" => some (Slot.eepromSave 0x2000)
        | _ => none
      let save1 : Option Slot :=
        match installed with
        | some b => some b
        | none => s.save
      let slots3 :=
        match installed with
        | some (Slot.eepromSave sz) => fun r => if r = 0xd then Slot.eepromSave sz else slots2 r
        | some b => fun r => if r = 0xe then b else slots2 r
        | none => slots2
      let save2 : Option Slot :=
        match save1 with
        | some b => some b
        | none => some (Slot.sramSave 0x8000)
      let slots4 :=
        match save1 with
        | some _ => slots3
        | none => fun r => if r = 0xe then Slot.sramSave 0x8000 else slots3 r
      let cart : Cart := ⟨some title, some code, some maker, saveType⟩
      (some cart, ⟨slots4, some cart, save2⟩)
    else
      let cart : Cart := ⟨none, none, none, none⟩
      (some cart, ⟨slots2, some cart, s.save⟩)

/-- Concrete 179-byte all-zero image: long enough for the header byte at
0xb2 to exist, and that byte is 0, not 0x96. -/
def exRom : List Nat := List.replicate 0xb3 0

/-- Concrete MMU state for witnesses. -/
def exMMU : MMUState := ⟨fun _ => Slot.badSlot, none, none⟩

/-- Concrete enabled, non-repeating DMA channel for witnesses: width 4,
both controls increment, vblank timing, 16 words from working RAM to
IRAM. -/
def exDma : GameBoyAdvanceMMU.DmaInfo :=
  ⟨true, false, 4, false, 0, 0, 1, 0x02000000, 0x03000000, 16, 0x02000000, 0x03000000, 16, 0⟩

/-- Concrete eight-byte source region for the DMA path witness. -/
def exSrc : List Nat := [1, 2, 3, 4, 5, 6, 7, 8]

/-- Concrete eight-byte destination region for the DMA path witness. -/
def exDst : List Nat := [0, 0, 0, 0, 0, 0, 0, 0]

namespace GameBoyAdvance

/-- Base64 alphabet character code of a sextet (the encoding btoa uses). -/
def b64char (n : Nat) : Nat :=
  if n < 26 then 65 + n
  else if n < 52 then 97 + (n - 26)
  else if n < 62 then 48 + (n - 52)
  else if n = 62 then 43
  else 47

/-- Browser btoa on a group of at most three byte-valued character codes:
four base64 character codes, padded with the code 61 of the equals sign. -/
def btoa : List Nat → List Nat
  | [a, b, c] =>
      [b64char (a >>> 2), b64char (((a &&& 3) <<< 4) ||| (b >>> 4)),
       b64char (((b &&& 15) <<< 2) ||| (c >>> 6)), b64char (c &&& 63)]
  | [a, b] =>
      [b64char (a >>> 2), b64char (((a &&& 3) <<< 4) ||| (b >>> 4)),
       b64char ((b &&& 15) <<< 2), 61]
  | [a] => [b64char (a >>> 2), b64char ((a &&& 3) <<< 4), 61, 61]
  | _ => []

/-- GameBoyAdvance.encodeBase64 (src/js/gba.js lines 242-258): bytes are
pushed onto a word string that is flushed through btoa whenever it holds
three bytes, the remainder at the end is flushed as a short group, and the
pieces are joined; this is btoa applied to consecutive three-byte chunks. -/
def encodeBase64 : List Nat → List Nat
  | a :: b :: c :: rest => btoa [a, b, c] ++ encodeBase64 rest
  | [] => []
  | rest => btoa rest

/-- JavaScript runtime errors surfaced by the decoder model. -/
inductive JsError
  | referenceError
deriving DecidableEq

/-- Base64 value of an alphabet character code (browser atob). -/
def b64value (c : Nat) : Nat :=
  if 65 ≤ c ∧ c ≤ 90 then c - 65
  else if 97 ≤ c ∧ c ≤ 122 then c - 71
  else if 48 ≤ c ∧ c ≤ 57 then c + 4
  else if c = 43 then 62
  else if c = 47 then 63
  else 0

/-- Browser atob on one four-character group: strip padding and reassemble
the bytes. -/
def atob4 (g : List Nat) : List Nat :=
  match g.filter (fun c => c ≠ 61) with
  | [a, b, c, d] =>
      [(b64value a <<< 2) ||| (b64value b >>> 4),
       ((b64value b &&& 15) <<< 4) ||| (b64value c >>> 2),
       ((b64value c &&& 3) <<< 6) ||| b64value d]
  | [a, b, c] =>
      [(b64value a <<< 2) ||| (b64value b >>> 4),
       ((b64value b &&& 15) <<< 4) ||| (b64value c >>> 2)]
  | [a, b] => [(b64value a <<< 2) ||| (b64value b >>> 4)]
  | _ => []

/-- The string match against four-character groups (string.match with a
four-dot pattern): consecutive groups of four, a shorter tail dropped. -/
def chunk4 : List Nat → List (List Nat)
  | a :: b :: c :: d :: rest => [a, b, c, d] :: chunk4 rest
  | _ => []

/-- Main loop of decodeBase64 (src/js/gba.js lines 226-231): while
i + 2 < length, decode the next group into three bytes and advance i by
three. -/
def decodeMainLoop (length : Nat) : List (List Nat) → Nat → List Nat
  | [], _ => []
  | g :: rest, i =>
      if i + 2 < length then atob4 g ++ decodeMainLoop length rest (i + 3)
      else []

/-- GameBoyAdvance.decodeBase64 (src/js/gba.js lines 216-241).  The byte
length is computed from the string length and the padding, the string is
split into four-character groups, and the main loop fills the buffer.  The
trailing-group block then reads the loop index i, but i was declared with
let in the head of the for statement and is out of scope there, so every
call raises a ReferenceError before the buffer can be returned. -/
def decodeBase64 (s : List Nat) : Except JsError (List Nat) :=
  let len0 := s.length * 3 / 4
  let length :=
    if (if 2 ≤ s.length then s.getD (s.length - 2) 0 else 0) = 61 then len0 - 2
    else if (if 1 ≤ s.length then s.getD (s.length - 1) 0 else 0) = 61 then len0 - 1
    else len0
  let bits := chunk4 s
  let _buffer := decodeMainLoop length bits 0
  Except.error JsError.referenceError

end GameBoyAdvance

/-! Helper lemmas on masks. -/

theorem readByte_lt (buf : List Nat) (i : Nat) : readByte buf i < 256 :=
  Nat.mod_lt _ (by norm_num)

theorem getUint32LE_lt (buf : List Nat) (i : Nat) : getUint32LE buf i < 4294967296 := by
  have h0 := readByte_lt buf i
  have h1 := readByte_lt buf (i + 1)
  have h2 := readByte_lt buf (i + 2)
  have h3 := readByte_lt buf (i + 3)
  unfold getUint32LE
  omega

theorem and_three_eq_mod (a : Nat) : a &&& 3 = a % 4 := by
  have h := Nat.and_pow_two_sub_one_eq_mod a 2
  norm_num at h
  exact h

/-- Conjunction absorption: masking twice with a submask of m is the same as
masking once. -/
theorem and_and_submask (a m c : Nat) : (a &&& c) &&& (m &&& c) = a &&& (m &&& c) := by
  apply Nat.eq_of_testBit_eq
  intro i
  simp only [Nat.testBit_and]
  cases a.testBit i <;> cases m.testBit i <;> cases c.testBit i <;> rfl

/-- Masking with m first is absorbed when the final mask is a submask of m. -/
theorem and_mask_and_submask (a m c : Nat) : (a &&& m) &&& (m &&& c) = a &&& (m &&& c) := by
  apply Nat.eq_of_testBit_eq
  intro i
  simp only [Nat.testBit_and]
  cases a.testBit i <;> cases m.testBit i <;> cases c.testBit i <;> rfl

theorem setUint32LE_length (buf : List Nat) (i w : Nat) :
    (setUint32LE buf i w).length = buf.length := by
  simp [setUint32LE]

theorem setUint32BE_length (buf : List Nat) (i w : Nat) :
    (setUint32BE buf i w).length = buf.length := by
  simp [setUint32BE]

/-- Byte extraction from a big-endian assembled word. -/
theorem be_extract (b0 b1 b2 b3 : Nat) (h0 : b0 < 256) (h1 : b1 < 256) (h2 : b2 < 256)
    (h3 : b3 < 256) :
    ((16777216 * b0 + 65536 * b1 + 256 * b2 + b3) >>> 24) % 256 = b0 ∧
    ((16777216 * b0 + 65536 * b1 + 256 * b2 + b3) >>> 16) % 256 = b1 ∧
    ((16777216 * b0 + 65536 * b1 + 256 * b2 + b3) >>> 8) % 256 = b2 ∧
    (16777216 * b0 + 65536 * b1 + 256 * b2 + b3) % 256 = b3 := by
  have p24 : (2:Nat) ^ 24 = 16777216 := by norm_num
  have p16 : (2:Nat) ^ 16 = 65536 := by norm_num
  have p8 : (2:Nat) ^ 8 = 256 := by norm_num
  refine ⟨?_, ?_, ?_, ?_⟩
  · rw [Nat.shiftRight_eq_div_pow, p24]
    omega
  · rw [Nat.shiftRight_eq_div_pow, p16]
    omega
  · rw [Nat.shiftRight_eq_div_pow, p8]
    omega
  · omega

/-- Byte extraction from a little-endian assembled word. -/
theorem le_extract (b0 b1 b2 b3 : Nat) (h0 : b0 < 256) (h1 : b1 < 256) (h2 : b2 < 256)
    (h3 : b3 < 256) :
    (b0 + 256 * b1 + 65536 * b2 + 16777216 * b3) % 256 = b0 ∧
    ((b0 + 256 * b1 + 65536 * b2 + 16777216 * b3) >>> 8) % 256 = b1 ∧
    ((b0 + 256 * b1 + 65536 * b2 + 16777216 * b3) >>> 16) % 256 = b2 ∧
    ((b0 + 256 * b1 + 65536 * b2 + 16777216 * b3) >>> 24) % 256 = b3 := by
  have p24 : (2:Nat) ^ 24 = 16777216 := by norm_num
  have p16 : (2:Nat) ^ 16 = 65536 := by norm_num
  have p8 : (2:Nat) ^ 8 = 256 := by norm_num
  refine ⟨?_, ?_, ?_, ?_⟩
  · omega
  · rw [Nat.shiftRight_eq_div_pow, p8]
    omega
  · rw [Nat.shiftRight_eq_div_pow, p16]
    omega
  · rw [Nat.shiftRight_eq_div_pow, p24]
    omega

/-- A big-endian read written back big-endian moves the same four bytes as
a little-endian read written back little-endian. -/
theorem set32_be_eq_le (src dst : List Nat) (i j : Nat) :
    setUint32BE dst j (getUint32BE src i) = setUint32LE dst j (getUint32LE src i) := by
  obtain ⟨e1, e2, e3, e4⟩ := be_extract (readByte src i) (readByte src (i + 1))
    (readByte src (i + 2)) (readByte src (i + 3)) (readByte_lt src i)
    (readByte_lt src (i + 1)) (readByte_lt src (i + 2)) (readByte_lt src (i + 3))
  obtain ⟨f1, f2, f3, f4⟩ := le_extract (readByte src i) (readByte src (i + 1))
    (readByte src (i + 2)) (readByte src (i + 3)) (readByte_lt src i)
    (readByte_lt src (i + 1)) (readByte_lt src (i + 2)) (readByte_lt src (i + 3))
  unfold setUint32BE setUint32LE getUint32BE getUint32LE
  rw [e1, e2, e3, e4, f1, f2, f3, f4]

/-- On a word-aligned offset, load32 is the plain little-endian word at
offset & mask32 with no rotation. -/
theorem load32_aligned_eq (buf : List Nat) (off : Nat) (h : off &&& 3 = 0) :
    MemoryView.load32 buf off = getUint32LE buf (off &&& MemoryView.mask32 buf) := by
  have hmem := getUint32LE_lt buf (off &&& MemoryView.mask32 buf)
  unfold MemoryView.load32
  rw [h]
  show getUint32LE buf (off &&& MemoryView.mask32 buf) |||
      getUint32LE buf (off &&& MemoryView.mask32 buf) % 4294967296 =
    getUint32LE buf (off &&& MemoryView.mask32 buf)
  rw [Nat.mod_eq_of_lt hmem, Nat.or_self]

/-- Masking a word-aligned 32-bit value with 0xfffffffc is the identity. -/
theorem and_fffffffc_of_aligned (a : Nat) (h4 : a % 4 = 0) (h32 : a < 4294967296) :
    a &&& 0xfffffffc = a := by
  apply Nat.eq_of_testBit_eq
  intro i
  simp only [Nat.testBit_and]
  have hmask : (0xfffffffc : Nat) = (2 ^ 30 - 1) <<< 2 := by rfl
  rcases Nat.lt_or_ge i 32 with hi | hi
  · rcases Nat.lt_or_ge i 2 with hi2 | hi2
    · have ha : a.testBit i = false := by
        rw [Nat.testBit_to_div_mod]
        apply decide_eq_false
        interval_cases i
        · norm_num
          omega
        · norm_num
          omega
      rw [ha, Bool.false_and]
    · have hc : Nat.testBit 0xfffffffc i = true := by
        rw [hmask, Nat.testBit_shiftLeft, Nat.testBit_two_pow_sub_one]
        simp only [ge_iff_le, Bool.and_eq_true, decide_eq_true_eq]
        omega
      rw [hc, Bool.and_true]
  · have hexp : (4294967296 : Nat) ≤ 2 ^ i := by
      calc (4294967296 : Nat) = 2 ^ 32 := by norm_num
      _ ≤ 2 ^ i := Nat.pow_le_pow_right (by norm_num) hi
    have ha : a.testBit i = false := Nat.testBit_lt_two_pow (lt_of_lt_of_le h32 hexp)
    rw [ha, Bool.false_and]

/-- Absorption facts for a word-aligned in-range index against the region
masks derived from a power-of-two length. -/
theorem index_absorb (a k : Nat) (hk : k ≤ 31) (ha4 : a % 4 = 0) (har : a + 4 ≤ 2 ^ k) :
    a &&& (2 ^ k - 1) = a ∧ a &&& ((2 ^ k - 1) &&& 0xfffffffc) = a ∧ a &&& 3 = 0 := by
  have hlt : a < 2 ^ k := by omega
  have h1 : a &&& (2 ^ k - 1) = a := Nat.and_pow_two_sub_one_of_lt_two_pow hlt
  have hk31 : (2:Nat) ^ k ≤ 2 ^ 31 := Nat.pow_le_pow_right (by norm_num) hk
  have hpow : (2:Nat) ^ 31 = 2147483648 := by norm_num
  rw [hpow] at hk31
  have ha32 : a < 4294967296 := by omega
  have h2 : a &&& 0xfffffffc = a := and_fffffffc_of_aligned a ha4 ha32
  refine ⟨h1, ?_, ?_⟩
  · rw [← Nat.and_assoc, h1, h2]
  · rw [and_three_eq_mod, ha4]

theorem toUint32_of_nonneg_lt (x : Int) (h0 : 0 ≤ x) (h : x < 4294967296) :
    toUint32 x = x.toNat := by
  unfold toUint32
  rw [Int.emod_eq_of_lt h0 h]

theorem toInt32_natCast_of_lt (m : Nat) (h : m < 2147483648) : toInt32 (m : Int) = m := by
  have hc : ((m : Int)) < 4294967296 := by
    have : (m : Int) < 2147483648 := by exact_mod_cast h
    omega
  have hu : toUint32 (m : Int) = m := by
    unfold toUint32
    rw [Int.emod_eq_of_lt (by positivity) hc, Int.toNat_natCast]
  unfold toInt32
  rw [hu, if_pos h]

/-- The word alignment source &= 0xfffffffc of the DMA paths is the
identity on an already aligned nonnegative int32 address. -/
theorem jsAnd_align_of_aligned (x : Int) (h0 : 0 ≤ x) (h4 : (4:Int) ∣ x)
    (h31 : x < 2147483648) :
    jsAnd x 0xfffffffc = x := by
  have hu : toUint32 x = x.toNat := toUint32_of_nonneg_lt x h0 (by omega)
  have hc : toUint32 (0xfffffffc : Int) = 0xfffffffc := by rfl
  have hx4 : x.toNat % 4 = 0 := by omega
  have hx32 : x.toNat < 4294967296 := by omega
  have hx31 : x.toNat < 2147483648 := by omega
  unfold jsAnd
  rw [hu, hc, and_fffffffc_of_aligned x.toNat hx4 hx32, toInt32_natCast_of_lt x.toNat hx31,
    Int.toNat_of_nonneg h0]

/-- Every DMA per-access offset is a multiple of four for a 4-byte width. -/
theorem dma_offset_mul4_dvd (c : Nat) :
    (4:Int) ∣ GameBoyAdvanceMMU.DMA_OFFSET.getD c 0 * 4 :=
  ⟨GameBoyAdvanceMMU.DMA_OFFSET.getD c 0, by ring⟩

/-- Core agreement of the three width-4 serviceDma copy loops: on
power-of-two regions, starting word-aligned with word multiples as offsets,
and with every access in range, the three loops produce the same
destination buffer. -/
theorem dmaCores32_agree (src : List Nat) (sk dk : Nat) (so dofs : Int)
    (hsl : src.length = 2 ^ sk) (hsk : sk ≤ 31) (hdk : dk ≤ 31)
    (hso : (4:Int) ∣ so) (hdo : (4:Int) ∣ dofs) :
    ∀ (n : Nat) (s d : Int) (dst : List Nat), dst.length = 2 ^ dk →
      (4:Int) ∣ s → (4:Int) ∣ d →
      (∀ i : Nat, i < n → 0 ≤ s + i * so ∧ s + i * so + 4 ≤ (src.length : Int)) →
      (∀ i : Nat, i < n → 0 ≤ d + i * dofs ∧ d + i * dofs + 4 ≤ (dst.length : Int)) →
      GameBoyAdvanceMMU.dmaCopyViews32 src (MemoryView.mask src) (2 ^ dk - 1) so dofs
          n s d dst =
        GameBoyAdvanceMMU.dmaCopyViewStore32 src (MemoryView.mask src) so dofs n s d dst ∧
      GameBoyAdvanceMMU.dmaCopyViews32 src (MemoryView.mask src) (2 ^ dk - 1) so dofs
          n s d dst =
        GameBoyAdvanceMMU.dmaCopyLoadStore32 src so dofs n s d dst := by
  intro n
  induction n with
  | zero =>
      intro s d dst _ _ _ _ _
      exact ⟨rfl, rfl⟩
  | succ m ih =>
      intro s d dst hdl hs4 hd4 hsr hdr
      have hs0 := hsr 0 (Nat.succ_pos m)
      have hd0 := hdr 0 (Nat.succ_pos m)
      norm_num at hs0 hd0
      obtain ⟨hs0a, hs0b⟩ := hs0
      obtain ⟨hd0a, hd0b⟩ := hd0
      rw [hsl] at hs0b
      rw [hdl] at hd0b
      have hskb : (2:Nat) ^ sk ≤ 2 ^ 31 := Nat.pow_le_pow_right (by norm_num) hsk
      have hdkb : (2:Nat) ^ dk ≤ 2 ^ 31 := Nat.pow_le_pow_right (by norm_num) hdk
      have hpow : (2:Nat) ^ 31 = 2147483648 := by norm_num
      rw [hpow] at hskb hdkb
      have hsn4 : s.toNat % 4 = 0 := by omega
      have hdn4 : d.toNat % 4 = 0 := by omega
      have hsrange : s.toNat + 4 ≤ 2 ^ sk := by omega
      have hdrange : d.toNat + 4 ≤ 2 ^ dk := by omega
      obtain ⟨hS1, hS2, hS3⟩ := index_absorb s.toNat sk hsk hsn4 hsrange
      obtain ⟨hD1, hD2, hD3⟩ := index_absorb d.toNat dk hdk hdn4 hdrange
      have hsu : toUint32 s = s.toNat := toUint32_of_nonneg_lt s hs0a (by omega)
      have hdu : toUint32 d = d.toNat := toUint32_of_nonneg_lt d hd0a (by omega)
      have hms : MemoryView.mask src = 2 ^ sk - 1 := by
        rw [MemoryView.mask, hsl]
      have hm32s : MemoryView.mask32 src = (2 ^ sk - 1) &&& 0xfffffffc := by
        rw [MemoryView.mask32, hms]
      have hm32d : MemoryView.mask32 dst = (2 ^ dk - 1) &&& 0xfffffffc := by
        rw [MemoryView.mask32, MemoryView.mask, hdl]
      have hidxS : toUint32 s &&& MemoryView.mask src = s.toNat := by
        rw [hsu, hms]
        exact hS1
      have hidxD : toUint32 d &&& (2 ^ dk - 1) = d.toNat := by
        rw [hdu]
        exact hD1
      have hidxD32 : toUint32 d &&& MemoryView.mask32 dst = d.toNat := by
        rw [hdu, hm32d]
        exact hD2
      have hLoad : MemoryView.load32 src (toUint32 s) = getUint32LE src s.toNat := by
        rw [hsu, load32_aligned_eq src s.toNat hS3, hm32s, hS2]
      simp only [GameBoyAdvanceMMU.dmaCopyViews32, GameBoyAdvanceMMU.dmaCopyViewStore32,
        GameBoyAdvanceMMU.dmaCopyLoadStore32, MemoryView.store32]
      rw [hidxS, hidxD, hidxD32, hLoad, set32_be_eq_le]
      set newDst := setUint32LE dst d.toNat (getUint32LE src s.toNat) with hnew
      have hlen2 : newDst.length = 2 ^ dk := by
        rw [hnew, setUint32LE_length, hdl]
      have hlen3 : newDst.length = dst.length := by
        rw [hlen2, hdl]
      have hranges : ∀ i : Nat, i < m →
          0 ≤ s + so + i * so ∧ s + so + i * so + 4 ≤ (src.length : Int) := by
        intro i him
        have h := hsr (i + 1) (by omega)
        obtain ⟨ha, hb⟩ := h
        push_cast at ha hb
        have e : s + so + (i:Int) * so = s + ((i:Int) + 1) * so := by ring
        constructor
        · linarith [e, ha]
        · linarith [e, hb]
      have hranged : ∀ i : Nat, i < m →
          0 ≤ d + dofs + i * dofs ∧ d + dofs + i * dofs + 4 ≤ (newDst.length : Int) := by
        intro i him
        have h := hdr (i + 1) (by omega)
        obtain ⟨ha, hb⟩ := h
        push_cast at ha hb
        rw [hlen3]
        have e : d + dofs + (i:Int) * dofs = d + ((i:Int) + 1) * dofs := by ring
        constructor
        · linarith [e, ha]
        · linarith [e, hb]
      exact ih (s + so) (d + dofs) newDst hlen2 (dvd_add hs4 hso) (dvd_add hd4 hdo)
        hranges hranged

/-- C10.  For every width-4 DMA transfer on power-of-two regions with
word-aligned source and destination and every access in range, the three
service paths of serviceDma, the view-to-view copy, the view-read with
region store32, and the fully general load32/store32 path, leave the
destination region with identical contents. -/
theorem dma_service_paths_agree (src dst : List Nat) (sk dk n : Nat)
    (source dest : Int) (srcControl dstControl : Nat)
    (hsl : src.length = 2 ^ sk) (hsk : sk ≤ 31)
    (hdl : dst.length = 2 ^ dk) (hdk : dk ≤ 31)
    (hs4 : (4:Int) ∣ source) (hd4 : (4:Int) ∣ dest)
    (hs0 : 0 ≤ source) (hs31 : source < 2147483648)
    (hd0 : 0 ≤ dest) (hd31 : dest < 2147483648)
    (hsr : ∀ i : Nat, i < n →
      0 ≤ source + i * (GameBoyAdvanceMMU.DMA_OFFSET.getD srcControl 0 * 4) ∧
      source + i * (GameBoyAdvanceMMU.DMA_OFFSET.getD srcControl 0 * 4) + 4 ≤
        (src.length : Int))
    (hdr : ∀ i : Nat, i < n →
      0 ≤ dest + i * (GameBoyAdvanceMMU.DMA_OFFSET.getD dstControl 0 * 4) ∧
      dest + i * (GameBoyAdvanceMMU.DMA_OFFSET.getD dstControl 0 * 4) + 4 ≤
        (dst.length : Int)) :
    GameBoyAdvanceMMU.dmaPathViews src dst n source dest srcControl dstControl =
      GameBoyAdvanceMMU.dmaPathViewStore src dst n source dest srcControl dstControl ∧
    GameBoyAdvanceMMU.dmaPathViews src dst n source dest srcControl dstControl =
      GameBoyAdvanceMMU.dmaPathLoadStore src dst n source dest srcControl dstControl := by
  have hja : jsAnd source 0xfffffffc = source := jsAnd_align_of_aligned source hs0 hs4 hs31
  have hjb : jsAnd dest 0xfffffffc = dest := jsAnd_align_of_aligned dest hd0 hd4 hd31
  have hmd : MemoryView.mask dst = 2 ^ dk - 1 := by
    rw [MemoryView.mask, hdl]
  unfold GameBoyAdvanceMMU.dmaPathViews GameBoyAdvanceMMU.dmaPathViewStore
    GameBoyAdvanceMMU.dmaPathLoadStore
  rw [hja, hjb, hmd]
  exact dmaCores32_agree src sk dk _ _ hsl hsk hdk (dma_offset_mul4_dvd srcControl)
    (dma_offset_mul4_dvd dstControl) n source dest dst hdl hs4 hd4 hsr hdr

/-- C10 witness: the three paths evaluated on concrete eight-byte regions,
one word copied from source 0 to dest 4 with incrementing controls. -/
theorem dma_service_paths_agree_witness :
    exSrc.length = 2 ^ 3 ∧ (3:Nat) ≤ 31 ∧ exDst.length = 2 ^ 3 ∧
    (4:Int) ∣ 0 ∧ (4:Int) ∣ 4 ∧ (0:Int) ≤ 0 ∧ (0:Int) < 2147483648 ∧
    (0:Int) ≤ 4 ∧ (4:Int) < 2147483648 ∧
    (∀ i : Nat, i < 1 →
      0 ≤ (0:Int) + i * (GameBoyAdvanceMMU.DMA_OFFSET.getD 0 0 * 4) ∧
      (0:Int) + i * (GameBoyAdvanceMMU.DMA_OFFSET.getD 0 0 * 4) + 4 ≤ (exSrc.length : Int)) ∧
    (∀ i : Nat, i < 1 →
      0 ≤ (4:Int) + i * (GameBoyAdvanceMMU.DMA_OFFSET.getD 0 0 * 4) ∧
      (4:Int) + i * (GameBoyAdvanceMMU.DMA_OFFSET.getD 0 0 * 4) + 4 ≤ (exDst.length : Int)) ∧
    (GameBoyAdvanceMMU.dmaPathViews exSrc exDst 1 0 4 0 0 =
      GameBoyAdvanceMMU.dmaPathViewStore exSrc exDst 1 0 4 0 0 ∧
    GameBoyAdvanceMMU.dmaPathViews exSrc exDst 1 0 4 0 0 =
      GameBoyAdvanceMMU.dmaPathLoadStore exSrc exDst 1 0 4 0 0) :=
  ⟨by decide, by decide, by decide, by decide, by decide, by decide, by decide, by decide,
   by decide, by decide, by decide,
   dma_service_paths_agree exSrc exDst 3 3 1 0 4 0 0 (by decide) (by decide) (by decide)
     (by decide) (by decide) (by decide) (by decide) (by decide) (by decide) (by decide)
     (by decide) (by decide)⟩

/-- C1.  For every region buffer and every address a, load32 at a equals the
aligned word load32 (a & ~3) rotated right by (a & 3) * 8 bits (ARM rotated
read semantics). -/
theorem load32_eq_rotateRight_aligned (buf : List Nat) (a : Nat) :
    MemoryView.load32 buf a =
      rotateRight32 (MemoryView.load32 buf (a &&& 0xfffffffc)) ((a &&& 3) * 8) := by
  have hidx : (a &&& 0xfffffffc) &&& MemoryView.mask32 buf = a &&& MemoryView.mask32 buf := by
    unfold MemoryView.mask32
    exact and_and_submask a (MemoryView.mask buf) 0xfffffffc
  have hc : (0xfffffffc &&& 3 : Nat) = 0 := by rfl
  have hrot : (a &&& 0xfffffffc) &&& 3 = 0 := by
    rw [Nat.and_assoc, hc, Nat.and_zero]
  have hmem := getUint32LE_lt buf (a &&& MemoryView.mask32 buf)
  have h3 := and_three_eq_mod a
  have h4 : a % 4 < 4 := Nat.mod_lt _ (by norm_num)
  unfold MemoryView.load32 rotateRight32
  rw [hidx, hrot, h3]
  set mem := getUint32LE buf (a &&& MemoryView.mask32 buf) with hmemdef
  have houter : (mem >>> (0 <<< 3)) ||| ((mem <<< ((32 - (0 <<< 3)) % 32)) % 4294967296) =
      mem := by
    show mem ||| mem % 4294967296 = mem
    rw [Nat.mod_eq_of_lt hmem, Nat.or_self]
  rw [houter]
  have hz : (mem <<< 32) % 4294967296 = 0 := by
    rw [Nat.shiftLeft_eq]
    exact Nat.mul_mod_left mem 4294967296
  interval_cases h : a % 4
  · rw [houter]
    norm_num [hz]
  · rfl
  · rfl
  · rfl

/-- C7 counterexample: on the four-byte region [0x11, 0x22, 0x33, 0x44] at
address 1, load16 differs from load16 at 1 & mask16 (the code masks 16-bit
loads with the byte mask, not mask16) and load32 differs from load32 at
1 & mask32 (the rotation is lost), so the claimed absorption law fails. -/
theorem mask_absorption_claim_false :
    ¬ (MemoryView.load8 exBuf 1 = MemoryView.load8 exBuf (1 &&& MemoryView.mask exBuf) ∧
       MemoryView.load16 exBuf 1 = MemoryView.load16 exBuf (1 &&& MemoryView.mask16 exBuf) ∧
       MemoryView.load32 exBuf 1 = MemoryView.load32 exBuf (1 &&& MemoryView.mask32 exBuf)) := by
  decide

/-- C7 amended.  For every region whose byte length is a nonzero multiple of
4 (every region in the program has power-of-two length at least 4), masking
an address with the region byte mask is absorbed by all three loads:
load8 (a) = load8 (a & mask), load16 (a) = load16 (a & mask) and
load32 (a) = load32 (a & mask).  Absorption with mask16 for load16 and with
mask32 for load32 does not hold (see the counterexample). -/
theorem load_absorbs_mask (buf : List Nat) (a : Nat) (h4 : 4 ∣ buf.length)
    (h0 : buf.length ≠ 0) :
    MemoryView.load8 buf a = MemoryView.load8 buf (a &&& MemoryView.mask buf) ∧
    MemoryView.load16 buf a = MemoryView.load16 buf (a &&& MemoryView.mask buf) ∧
    MemoryView.load32 buf a = MemoryView.load32 buf (a &&& MemoryView.mask buf) := by
  have hm3 : MemoryView.mask buf &&& 3 = 3 := by
    rw [and_three_eq_mod]
    unfold MemoryView.mask
    omega
  have hrot : (a &&& MemoryView.mask buf) &&& 3 = a &&& 3 := by
    rw [Nat.and_assoc, hm3]
  have habs : ∀ c : Nat,
      (a &&& MemoryView.mask buf) &&& (MemoryView.mask buf &&& c) =
        a &&& (MemoryView.mask buf &&& c) :=
    fun c => and_mask_and_submask a (MemoryView.mask buf) c
  refine ⟨?_, ?_, ?_⟩
  · unfold MemoryView.load8 MemoryView.mask8
    rw [habs 0xffffffff]
  · unfold MemoryView.load16
    rw [Nat.and_assoc, Nat.and_self]
  · unfold MemoryView.load32 MemoryView.mask32
    rw [habs 0xfffffffc, hrot]

/-- C7 witness: the amended absorption law evaluated on the concrete
four-byte region at address 5. -/
theorem load_absorbs_mask_witness :
    4 ∣ exBuf.length ∧ exBuf.length ≠ 0 ∧
    (MemoryView.load8 exBuf 5 = MemoryView.load8 exBuf (5 &&& MemoryView.mask exBuf) ∧
     MemoryView.load16 exBuf 5 = MemoryView.load16 exBuf (5 &&& MemoryView.mask exBuf) ∧
     MemoryView.load32 exBuf 5 = MemoryView.load32 exBuf (5 &&& MemoryView.mask exBuf)) :=
  ⟨by decide, by decide, load_absorbs_mask exBuf 5 (by decide) (by decide)⟩

/-- C6 counterexample: on a BIOS view over an empty buffer, the out-of-bounds
unsigned byte load returns -1, not 0xFF, so the claim as stated fails. -/
theorem bios_out_of_bounds_claim_false :
    ¬ (BIOSView.load8 [] 0 = -1 ∧ BIOSView.load16 [] 0 = -1 ∧ BIOSView.load32 [] 0 = -1 ∧
       BIOSView.loadU8 [] 0 = 0xff ∧ BIOSView.loadU16 [] 0 = 0xffff) := by
  decide

/-- C6 amended.  For every BIOS view and every offset at or past the end of
the backing buffer, all five loads, the unsigned ones included, return the
JavaScript number -1 rather than wrapping around the buffer. -/
theorem bios_load_out_of_bounds (buf : List Nat) (offset : Nat)
    (h : offset ≥ buf.length) :
    BIOSView.load8 buf offset = -1 ∧ BIOSView.load16 buf offset = -1 ∧
    BIOSView.load32 buf offset = -1 ∧ BIOSView.loadU8 buf offset = -1 ∧
    BIOSView.loadU16 buf offset = -1 := by
  unfold BIOSView.load8 BIOSView.load16 BIOSView.load32 BIOSView.loadU8 BIOSView.loadU16
  simp [h]

/-- C6 witness: the amended out-of-bounds law evaluated on a concrete
two-byte BIOS buffer at offset 2. -/
theorem bios_load_out_of_bounds_witness :
    2 ≥ ([0xab, 0xcd] : List Nat).length ∧
    (BIOSView.load8 [0xab, 0xcd] 2 = -1 ∧ BIOSView.load16 [0xab, 0xcd] 2 = -1 ∧
     BIOSView.load32 [0xab, 0xcd] 2 = -1 ∧ BIOSView.loadU8 [0xab, 0xcd] 2 = -1 ∧
     BIOSView.loadU16 [0xab, 0xcd] 2 = -1) :=
  ⟨by decide, bios_load_out_of_bounds [0xab, 0xcd] 2 (by decide)⟩

/-- C5.  After every call to adjustTimings, on each cartridge window slot
8-13 the 32-bit non-sequential wait states equal nonseq + 1 + seq, the
32-bit sequential wait states equal 2 * seq + 1, and the prefetch vectors
equal the sequential vectors when WAITCNT bit 14 is clear and are zero on
those slots when it is set. -/
theorem adjustTimings_cart_windows (s : GameBoyAdvanceMMU.WaitStates) (word slot : Nat)
    (h8 : 8 ≤ slot) (h13 : slot ≤ 13) :
    (GameBoyAdvanceMMU.adjustTimings s word).waitstates32 slot =
      (GameBoyAdvanceMMU.adjustTimings s word).waitstates slot + 1 +
        (GameBoyAdvanceMMU.adjustTimings s word).waitstatesSeq slot ∧
    (GameBoyAdvanceMMU.adjustTimings s word).waitstatesSeq32 slot =
      2 * (GameBoyAdvanceMMU.adjustTimings s word).waitstatesSeq slot + 1 ∧
    (word &&& 0x4000 = 0 →
      (GameBoyAdvanceMMU.adjustTimings s word).waitstatesPrefetch slot =
        (GameBoyAdvanceMMU.adjustTimings s word).waitstatesSeq slot ∧
      (GameBoyAdvanceMMU.adjustTimings s word).waitstatesPrefetch32 slot =
        (GameBoyAdvanceMMU.adjustTimings s word).waitstatesSeq32 slot) ∧
    (word &&& 0x4000 ≠ 0 →
      (GameBoyAdvanceMMU.adjustTimings s word).waitstatesPrefetch slot = 0 ∧
      (GameBoyAdvanceMMU.adjustTimings s word).waitstatesPrefetch32 slot = 0) := by
  by_cases hp : word &&& 0x4000 = 0 <;> interval_cases slot <;>
    simp [GameBoyAdvanceMMU.adjustTimings, GameBoyAdvanceMMU.upd1, GameBoyAdvanceMMU.upd2,
      GameBoyAdvanceMMU.REGION_CART0, GameBoyAdvanceMMU.REGION_CART1,
      GameBoyAdvanceMMU.REGION_CART2, GameBoyAdvanceMMU.REGION_CART_SRAM, hp]

/-- C5 witness: the wait-state relations evaluated on concrete vectors with
WAITCNT word 0x4014 at slot 8. -/
theorem adjustTimings_cart_windows_witness :
    8 ≤ 8 ∧ (8 : Nat) ≤ 13 ∧
    ((GameBoyAdvanceMMU.adjustTimings exWS 0x4014).waitstates32 8 =
      (GameBoyAdvanceMMU.adjustTimings exWS 0x4014).waitstates 8 + 1 +
        (GameBoyAdvanceMMU.adjustTimings exWS 0x4014).waitstatesSeq 8 ∧
    (GameBoyAdvanceMMU.adjustTimings exWS 0x4014).waitstatesSeq32 8 =
      2 * (GameBoyAdvanceMMU.adjustTimings exWS 0x4014).waitstatesSeq 8 + 1 ∧
    (0x4014 &&& 0x4000 = 0 →
      (GameBoyAdvanceMMU.adjustTimings exWS 0x4014).waitstatesPrefetch 8 =
        (GameBoyAdvanceMMU.adjustTimings exWS 0x4014).waitstatesSeq 8 ∧
      (GameBoyAdvanceMMU.adjustTimings exWS 0x4014).waitstatesPrefetch32 8 =
        (GameBoyAdvanceMMU.adjustTimings exWS 0x4014).waitstatesSeq32 8) ∧
    (0x4014 &&& 0x4000 ≠ 0 →
      (GameBoyAdvanceMMU.adjustTimings exWS 0x4014).waitstatesPrefetch 8 = 0 ∧
      (GameBoyAdvanceMMU.adjustTimings exWS 0x4014).waitstatesPrefetch32 8 = 0)) :=
  ⟨by decide, by decide, adjustTimings_cart_windows exWS 0x4014 8 (by decide) (by decide)⟩

/-- C8.  Evaluation of waitMul at the failing input 0x01000001: the most
significant byte is nonzero, so the claim demands a 4-cycle charge, but the
code charges 1 cycle because the odd multiplier makes its first guard
rs & (0xffffff00 === 0xffffff00), which reads rs & 1, truthy. -/
theorem waitMul_failing_input : GameBoyAdvanceMMU.waitMulCycles 0x01000001 = 1 := by decide

/-- C2.  Failing run for the icache invalidation invariant: on working RAM,
allocate the page covering addresses 0x0 to 0x1ff (page id 0 with 9 page
bits), store at 0x8000 (which rewrites ICACHE_PAGE_BITS to 4), then store at
0x10.  The second store lands inside the allocated page, yet the page stays
valid, because the invalidation now computes page index 0x10 >> 4 = 1.  The
first conjunct shows the page-bit corruption after the first store. -/
theorem icache_store_leaves_stale_page :
    (MemoryBlock.store8Invalidate (MemoryBlock.accessPage wramBlock 0) 0x8000).pageBits = 4 ∧
    (MemoryBlock.store8Invalidate
        (MemoryBlock.store8Invalidate (MemoryBlock.accessPage wramBlock 0) 0x8000)
        0x10).icache 0 = some ⟨false⟩ := by
  constructor
  · rfl
  · rfl

/-- C4.  When the byte at offset 0xb2 of the given image exists and is not
0x96, loadRom returns no cart and mutates nothing: the cart field, the save
field and all region slots keep their prior contents. -/
theorem loadRom_rejects_bad_header (rom : List Nat) (process : Bool) (s : MMUState)
    (_hlen : 0xb2 < rom.length) (hbyte : readByte rom 0xb2 ≠ 0x96) :
    (loadRom rom process s).1 = none ∧ (loadRom rom process s).2.cart = s.cart ∧
    (loadRom rom process s).2.save = s.save ∧
    ∀ r, (loadRom rom process s).2.slots r = s.slots r := by
  unfold loadRom
  simp [hbyte]

set_option maxRecDepth 8192 in
/-- C4 witness: the rejection evaluated on a concrete 179-byte all-zero
image over a concrete state. -/
theorem loadRom_rejects_bad_header_witness :
    0xb2 < exRom.length ∧ readByte exRom 0xb2 ≠ 0x96 ∧
    ((loadRom exRom true exMMU).1 = none ∧
     (loadRom exRom true exMMU).2.cart = exMMU.cart ∧
     (loadRom exRom true exMMU).2.save = exMMU.save ∧
     ∀ r, (loadRom exRom true exMMU).2.slots r = exMMU.slots r) :=
  ⟨by decide, by decide, loadRom_rejects_bad_header exRom true exMMU (by decide) (by decide)⟩

/-- C9.  Evaluation of the base64 round trip at the failing input 0x41: the
encoder produces the four characters QQ equals equals, and the decoder
raises a ReferenceError on it (as on every input) because the source reads
the loop index i after its let declaration in the for head went out of
scope, instead of returning the decoded byte string. -/
theorem base64_roundtrip_failing_input :
    GameBoyAdvance.encodeBase64 [0x41] = [0x51, 0x51, 0x3d, 0x3d] ∧
    GameBoyAdvance.decodeBase64 [0x51, 0x51, 0x3d, 0x3d] =
      Except.error GameBoyAdvance.JsError.referenceError := by
  constructor
  · rfl
  · rfl

/-- C3.  For every serviceDma call on an enabled channel that returns: with
repeat clear, the channel enable flag is false on return and bit 15 (the
enable bit) of the mapped DMA control register for the channel is clear;
with repeat set, nextCount equals the programmed count on return, and
nextDest equals the programmed dest when dstControl is incrementReload.
The termination hypothesis records that a repeating channel cannot have
immediate timing, since serviceDma would then re-enter itself through
scheduleDma forever and never return. -/
theorem serviceDma_completion (dma : Nat) (info : GameBoyAdvanceMMU.DmaInfo)
    (ioRegs : Nat → Nat) (ws : GameBoyAdvanceMMU.WaitStates) (cycles : Int)
    (hen : info.enable = true)
    (_hterm : info.repeats = true → info.timing ≠ GameBoyAdvanceMMU.DMA_TIMING_NOW) :
    (info.repeats = false →
      (GameBoyAdvanceMMU.serviceDma dma info ioRegs ws cycles).1.enable = false ∧
      Nat.testBit
        ((GameBoyAdvanceMMU.serviceDma dma info ioRegs ws cycles).2
          (GameBoyAdvanceMMU.DMA_REGISTER.getD dma 0)) 15 = false) ∧
    (info.repeats = true →
      (GameBoyAdvanceMMU.serviceDma dma info ioRegs ws cycles).1.nextCount =
        (info.count : Int) ∧
      (info.dstControl = GameBoyAdvanceMMU.DMA_INCREMENT_RELOAD →
        (GameBoyAdvanceMMU.serviceDma dma info ioRegs ws cycles).1.nextDest =
          (info.dest : Int))) := by
  have hbit : Nat.testBit 0x7fe0 15 = false := by decide
  unfold GameBoyAdvanceMMU.serviceDma
  rcases hr : info.repeats with _ | _
  · simp only [hen, hr]
    refine ⟨fun _ => ⟨?_, ?_⟩, fun h => by simp at h⟩
    · simp
    · simp [Nat.testBit_and, hbit]
  · simp only [hen, hr]
    refine ⟨fun h => by simp at h, fun _ => ⟨?_, ?_⟩⟩
    · by_cases hd : info.dstControl = GameBoyAdvanceMMU.DMA_INCREMENT_RELOAD <;> simp [hd]
    · intro hd
      simp [hd]

/-- C3 witness: completion bookkeeping evaluated on the concrete enabled
non-repeating channel with a zeroed register file and unit wait states. -/
theorem serviceDma_completion_witness :
    exDma.enable = true ∧
    (exDma.repeats = true → exDma.timing ≠ GameBoyAdvanceMMU.DMA_TIMING_NOW) ∧
    ((exDma.repeats = false →
      (GameBoyAdvanceMMU.serviceDma 3 exDma (fun _ => 0xffff) exWS 0).1.enable = false ∧
      Nat.testBit
        ((GameBoyAdvanceMMU.serviceDma 3 exDma (fun _ => 0xffff) exWS 0).2
          (GameBoyAdvanceMMU.DMA_REGISTER.getD 3 0)) 15 = false) ∧
    (exDma.repeats = true →
      (GameBoyAdvanceMMU.serviceDma 3 exDma (fun _ => 0xffff) exWS 0).1.nextCount =
        (exDma.count : Int) ∧
      (exDma.dstControl = GameBoyAdvanceMMU.DMA_INCREMENT_RELOAD →
        (GameBoyAdvanceMMU.serviceDma 3 exDma (fun _ => 0xffff) exWS 0).1.nextDest =
          (exDma.dest : Int)))) :=
  ⟨by decide, by decide,
    serviceDma_completion 3 exDma (fun _ => 0xffff) exWS 0 (by decide) (by decide)⟩

end GBA
